import Mathlib

/-!
Verification of the core invariants of the nostrpad client: the sync engine
last-writer-wins timestamp gate and publish guards, the relay discovery
fallback chain and cache, the encrypted session vault with its integrity
tag, the logout/invalidation protocol, and padId/key derivation.

The definitions are shallow embeddings of the TypeScript sources (files and
line ranges are cited in the doc comments).  External capabilities
(signing, AEAD, SHA-256, sockets) are passed as parameters or idealised,
as the specification treats them as out of scope primitives.  Components
whose implementation is no longer present in the tree (the createdAt-aware
session store and the relay cache read/write path, both documented in
ARCHITECTURE.md / RELAY_DISCOVERY.md and exercised by in-tree callers) are
modelled from the spec and marked as such.
-/

namespace NostrPad

/-- Modelled from the spec: the SHA-256 digest capability
(crypto.subtle.digest), an external primitive.  The spec treats the hash
as a deterministic, collision-free integrity function, so it is idealised
here as an injective function on byte strings; only determinism and
injectivity of this model are used. -/
def sha256Model (bytes : List Nat) : List Nat := bytes

/-- TextEncoder model: byte sequence of an ASCII identifier string. -/
def strBytes (s : String) : List Nat := s.data.map Char.toNat

namespace Sync

/-- Decoded pad payload, lib/types.ts PadPayload: text plus the embedded
client timestamp in milliseconds (a JS number, integral for Date.now). -/
structure PadPayload where
  text : String
  timestamp : Int
deriving DecidableEq, Repr

/-- The sync engine refs of hooks/useNostrPad.ts: latestTimestampRef,
latestTextRef, the content state, and isLocalChangeRef. -/
structure SyncState where
  latestTimestamp : Int
  latestText : String
  content : String
  isLocalChange : Bool
deriving DecidableEq, Repr

/-- Initial state of the hook: refs start at 0 / empty, no local edit. -/
def initialSyncState : SyncState :=
  { latestTimestamp := 0, latestText := "", content := "", isLocalChange := false }

/-- Content branch of handleEvent (hooks/useNostrPad.ts): adopt the decoded
payload only when its embedded timestamp strictly exceeds the latest seen;
the visible content is not overwritten while a local edit is in flight.
Decode failures (decodePayload returning null) are discarded before this
point, see handleEvent below. -/
def handleContentEvent (s : SyncState) (p : PadPayload) : SyncState :=
  if s.latestTimestamp < p.timestamp then
    { latestTimestamp := p.timestamp
      latestText := p.text
      content := if s.isLocalChange then s.content else p.text
      isLocalChange := s.isLocalChange }
  else s

/-- handleEvent at payload level: a failed decode (none) is discarded
silently, a successful decode goes through the timestamp gate. -/
def handleEvent (s : SyncState) (decoded : Option PadPayload) : SyncState :=
  match decoded with
  | none => s
  | some p => handleContentEvent s p

/-- Initial editor-mode fetch (querySync block of useNostrPad): the most
recent valid event is decoded and adopted through the same timestamp gate;
here the content state is set unconditionally. -/
def loadLatestContent (s : SyncState) (p : PadPayload) : SyncState :=
  if s.latestTimestamp < p.timestamp then
    { latestTimestamp := p.timestamp
      latestText := p.text
      content := p.text
      isLocalChange := s.isLocalChange }
  else s

/-- Local edit (the setContent handler): marks isLocalChangeRef and updates
the visible content. -/
def setContent (s : SyncState) (newContent : String) : SyncState :=
  { s with content := newContent, isLocalChange := true }

/-- Completion of doPublish when the published event decodes back: the
latest refs are updated to the published payload and the local-change flag
is cleared.  The embedded timestamp comes from Date.now at encode time. -/
def completePublish (s : SyncState) (p : PadPayload) : SyncState :=
  { latestTimestamp := p.timestamp
    latestText := p.text
    content := s.content
    isLocalChange := false }

/-- Completion of doPublish when decoding the own event fails: refs are
left untouched, only the local-change flag is cleared. -/
def completePublishNoDecode (s : SyncState) : SyncState :=
  { s with isLocalChange := false }

/-- The two content guards of the publish effect (hooks/useNostrPad.ts):
skip when the debounced content matches the latest text and an event is
already known (latestTimestamp positive), and skip empty content before
any content has ever loaded.  Returns true iff a publish is performed. -/
def publishProceeds (s : SyncState) (debounced : String) : Bool :=
  if debounced = s.latestText ∧ 0 < s.latestTimestamp then false
  else if debounced = "" ∧ s.latestTimestamp = 0 then false
  else true

/-- States of the sync engine reachable from start-up: incoming events
(subscription or initial fetch), local edits, pad-switch resets (which
restore exactly the initial state), and publish completions.  A publish
completion carries a positive embedded timestamp, produced by Date.now at
encode time. -/
inductive ReachableSync : SyncState → Prop where
  | init : ReachableSync initialSyncState
  | recv (s : SyncState) (p : Option PadPayload) :
      ReachableSync s → ReachableSync (handleEvent s p)
  | load (s : SyncState) (p : PadPayload) :
      ReachableSync s → ReachableSync (loadLatestContent s p)
  | edit (s : SyncState) (c : String) :
      ReachableSync s → ReachableSync (setContent s c)
  | publishDone (s : SyncState) (p : PadPayload) :
      ReachableSync s → 0 < p.timestamp → ReachableSync (completePublish s p)
  | publishNoDecode (s : SyncState) :
      ReachableSync s → ReachableSync (completePublishNoDecode s)

end Sync

namespace Vault

/-- Modelled from the spec: the SessionRecord of the createdAt-aware
session store (documented in ARCHITECTURE.md; its callers in
SessionStartModal.tsx and PadPage.tsx pass and read session.createdAt, but
the implementation file is not in the tree).  padId is carried as its
TextEncoder byte sequence, createdAt is optional to capture the legacy
shape, aesKey stands for the non-exportable CryptoKey handle. -/
structure SessionRecord where
  padId : List Nat
  encryptedPrivateKey : List Nat
  aesKey : Nat
  iv : List Nat
  createdAt : Option Nat
  integrityTag : Option (List Nat)
deriving DecidableEq, Repr

/-- Big-endian 8-byte serialisation of the createdAt millisecond timestamp
used inside the integrity tag input. -/
def natBytes8 (n : Nat) : List Nat :=
  [n / 72057594037927936 % 256, n / 281474976710656 % 256,
   n / 1099511627776 % 256, n / 4294967296 % 256,
   n / 16777216 % 256, n / 65536 % 256, n / 256 % 256, n % 256]

/-- Modelled from the spec: integrityTag = Hash(padId, createdAt, iv,
encryptedPrivateKey), the SHA-256 of the concatenated fields
(ARCHITECTURE.md: SHA-256(padId + createdAt + iv + encryptedPrivateKey)). -/
def computeIntegrityTag (padId : List Nat) (createdAt : Nat)
    (iv encryptedPrivateKey : List Nat) : List Nat :=
  sha256Model (padId ++ natBytes8 createdAt ++ iv ++ encryptedPrivateKey)

/-- Modelled from the spec: verification recomputes the tag from the
stored fields and compares; a record without an integrity tag or without
createdAt (legacy shape) never verifies. -/
def verifyIntegrityTag (s : SessionRecord) : Bool :=
  match s.integrityTag, s.createdAt with
  | some tag, some c =>
      decide (computeIntegrityTag s.padId c s.iv s.encryptedPrivateKey = tag)
  | _, _ => false

/-- Modelled from the spec: storing a session writes the single record
(one global key, so the store is an Option) with a freshly computed tag. -/
def storeSession (padId encryptedPrivateKey : List Nat) (aesKey : Nat)
    (iv : List Nat) (createdAt : Nat) : Option SessionRecord :=
  some { padId := padId, encryptedPrivateKey := encryptedPrivateKey,
         aesKey := aesKey, iv := iv, createdAt := some createdAt,
         integrityTag := some (computeIntegrityTag padId createdAt iv encryptedPrivateKey) }

/-- Modelled from the spec: read with integrity verification; a missing
record, a tag mismatch, or a legacy shape yields none. -/
def getVerifiedStoredSession (db : Option SessionRecord) : Option SessionRecord :=
  match db with
  | none => none
  | some s => if verifyIntegrityTag s then some s else none

/-- Modelled from the spec: the per-pad accessor; the verified record is
returned only when its padId matches the requested one. -/
def getSession (db : Option SessionRecord) (padId : List Nat) :
    Option (List Nat × Nat × List Nat) :=
  match getVerifiedStoredSession db with
  | none => none
  | some s =>
      if s.padId = padId then some (s.encryptedPrivateKey, s.aesKey, s.iv)
      else none

/-- Modelled from the spec: decryption of the stored secret key; the AEAD
decrypt capability is a parameter and is only consulted when a verified,
matching record exists. -/
def getDecryptedPrivateKey
    (decrypt : List Nat → Nat → List Nat → Option (List Nat))
    (db : Option SessionRecord) (padId : List Nat) : Option (List Nat) :=
  match getSession db padId with
  | none => none
  | some (enc, key, iv) => decrypt enc key iv

end Vault

namespace Invalidation

/-- Logout branch of handleEvent (hooks/useNostrPad.ts): the signal fires
only for an editor, for a valid logout event, when a session creation time
is present and truthy, and when the event time (seconds, scaled to ms)
is strictly after the session creation time. -/
def logoutSignalFires (canEdit validLogout : Bool)
    (sessionCreatedAt : Option Nat) (eventCreatedAt : Nat) : Bool :=
  match sessionCreatedAt with
  | none => false
  | some t => canEdit && validLogout && !(t == 0) && decide (t < eventCreatedAt * 1000)

/-- createdAt of the currently stored, verified session, with the JS
or-zero default (components/PadPage.tsx handleLogout). -/
def storedSessionCreatedAt (vault : Option Vault.SessionRecord) : Nat :=
  match Vault.getVerifiedStoredSession vault with
  | some s => s.createdAt.getD 0
  | none => 0

/-- handleLogout (components/PadPage.tsx): if the stored session is newer
than the session of this tab, the clear is skipped (same-device update);
otherwise the session is cleared and the page downgrades to read-only.
Returns the vault after the call and whether the downgrade happened. -/
def handleLogout (vault : Option Vault.SessionRecord)
    (currentCreatedAt : Nat) : Option Vault.SessionRecord × Bool :=
  if currentCreatedAt < storedSessionCreatedAt vault then (vault, false)
  else (none, true)

/-- End-to-end handling of a received logout event by an editor tab:
the handleEvent gate followed by the handleLogout callback. -/
def processLogoutEvent (canEdit validLogout : Bool)
    (sessionCreatedAt : Option Nat) (eventCreatedAt : Nat)
    (vault : Option Vault.SessionRecord) : Option Vault.SessionRecord × Bool :=
  if logoutSignalFires canEdit validLogout sessionCreatedAt eventCreatedAt then
    handleLogout vault (sessionCreatedAt.getD 0)
  else (vault, false)

end Invalidation

namespace Discovery

/-- lib/constants.ts BOOTSTRAP_RELAYS. -/
def BOOTSTRAP_RELAYS : List String :=
  ["wss://relay.damus.io", "wss://nos.lol", "wss://relay.primal.net"]

/-- lib/constants.ts RELAY_CACHE_DURATION (five minutes, in ms). -/
def RELAY_CACHE_DURATION : Nat := 5 * 60 * 1000

/-- Provenance of a relay selection; the cached variant is consumed by the
footer UI (components/ShareModal.tsx). -/
inductive RelaySource where
  | bootstrap
  | discovered
  | cached
deriving DecidableEq, Repr

/-- Result of a relay selection: the relay list and its provenance. -/
structure RelaySelection where
  relays : List String
  source : RelaySource
deriving DecidableEq, Repr

/-- Outcomes of the external calls made during one run of
initializeRelays.  Each call either returns a value or throws (error),
letting the theorems quantify over every combination of probe and
discovery failures.  The publish outcome covers the publishRelayList call
of whichever branch reaches it. -/
structure DiscoveryWorld where
  probeBootstrap : Except Unit (List String)
  bestRelays : Except Unit (List String)
  publishOutcome : Except Unit Unit
  fetchResult : Except Unit (Option (List String))

/-- Insertion-order deduplication, the JS new Set spread. -/
def dedupAux (seen : List String) : List String → List String
  | [] => []
  | x :: xs => if x ∈ seen then dedupAux seen xs else x :: dedupAux (x :: seen) xs

/-- Insertion-order deduplication, the JS new Set spread. -/
def dedupJs (l : List String) : List String := dedupAux [] l

/-- initializeRelays of hooks/useRelayDiscovery.ts.  Editor path: probe
the bootstrap set and use it when any probe responds (publishing the
relay list); otherwise discover and select the best relays, falling back
to bootstrap when none are found.  Viewer path: fetch the announced relay
list by padId and union it with bootstrap, falling back to bootstrap on
miss.  Any thrown error is caught and falls back to bootstrap. -/
def initializeRelays (isEditor hasSecretKey : Bool) (w : DiscoveryWorld) :
    RelaySelection :=
  if isEditor && hasSecretKey then
    match w.probeBootstrap with
    | .error _ => { relays := BOOTSTRAP_RELAYS, source := .bootstrap }
    | .ok probes =>
        if 0 < probes.length then
          match w.publishOutcome with
          | .error _ => { relays := BOOTSTRAP_RELAYS, source := .bootstrap }
          | .ok _ => { relays := BOOTSTRAP_RELAYS, source := .bootstrap }
        else
          match w.bestRelays with
          | .error _ => { relays := BOOTSTRAP_RELAYS, source := .bootstrap }
          | .ok best =>
              if 0 < best.length then
                match w.publishOutcome with
                | .error _ => { relays := BOOTSTRAP_RELAYS, source := .bootstrap }
                | .ok _ => { relays := best, source := .discovered }
              else { relays := BOOTSTRAP_RELAYS, source := .bootstrap }
  else
    match w.fetchResult with
    | .error _ => { relays := BOOTSTRAP_RELAYS, source := .bootstrap }
    | .ok none => { relays := BOOTSTRAP_RELAYS, source := .bootstrap }
    | .ok (some discovered) =>
        if 0 < discovered.length then
          { relays := dedupJs (discovered ++ BOOTSTRAP_RELAYS), source := .discovered }
        else { relays := BOOTSTRAP_RELAYS, source := .bootstrap }

/-- A DiscoveryWorld in which every external call throws. -/
def allFailWorld : DiscoveryWorld :=
  { probeBootstrap := .error (), bestRelays := .error (),
    publishOutcome := .error (), fetchResult := .error () }

/-- A DiscoveryWorld for the writer path in which the bootstrap probes
all fail and discovery selects a single non-bootstrap relay. -/
def supersetCexWorld : DiscoveryWorld :=
  { probeBootstrap := .ok [], bestRelays := .ok ["wss://nostr.wine"],
    publishOutcome := .ok (), fetchResult := .ok none }

/-- One cache record of the relay cache (localStorage under
RELAY_CACHE_KEY, one entry per padId): the selected relays and the store
time; the shape is referenced by clearCachedRelays in
lib/relayDiscovery.ts. -/
structure RelayCache where
  relays : List String
  timestamp : Nat
deriving DecidableEq, Repr

/-- The whole relay cache: one record per padId. -/
def CacheStore : Type := String → Option RelayCache

/-- Modelled from the spec: cache lookup with freshness check against
RELAY_CACHE_DURATION (the cache read path is not in the tree; only
clearCachedRelays, the constants and the cached UI source remain). -/
def getCachedRelays (cache : CacheStore) (padId : String) (now : Nat) :
    Option (List String) :=
  match cache padId with
  | none => none
  | some c => if now - c.timestamp < RELAY_CACHE_DURATION then some c.relays else none

/-- Modelled from the spec: store a successful selection keyed by padId
with the current time. -/
def setCachedRelays (cache : CacheStore) (padId : String)
    (relays : List String) (now : Nat) : CacheStore :=
  fun k => if k = padId then some { relays := relays, timestamp := now } else cache k

/-- clearCachedRelays of lib/relayDiscovery.ts: delete the record of one
padId. -/
def clearCachedRelays (cache : CacheStore) (padId : String) : CacheStore :=
  fun k => if k = padId then none else cache k

/-- The empty relay cache. -/
def emptyCache : CacheStore := fun _ => none

/-- Result of a cache-aware selection run: the selection, the cache after
the run, and whether discovery (probes or queries) actually ran. -/
structure CachedRun where
  selection : RelaySelection
  cache : CacheStore
  discoveryRan : Bool

/-- Modelled from the spec: a fresh cache hit skips discovery entirely and
is tagged cached; on a miss the selection runs and is stored keyed by
padId with the current time. -/
def initializeRelaysCached (cache : CacheStore) (padId : String) (now : Nat)
    (isEditor hasSecretKey : Bool) (w : DiscoveryWorld) : CachedRun :=
  match getCachedRelays cache padId now with
  | some relays =>
      { selection := { relays := relays, source := .cached },
        cache := cache, discoveryRan := false }
  | none =>
      let r := initializeRelays isEditor hasSecretKey w
      { selection := r, cache := setCachedRelays cache padId r.relays now,
        discoveryRan := true }

end Discovery

namespace Keys

/-- lib/constants.ts ALPHABET (unambiguous base-N alphabet). -/
def ALPHABET : List Char :=
  "23456789ABCDEFGHJKLMNPQRSTUVWXYZabcdefghijkmnopqrstuvwxyz".data

/-- lib/encoding.ts BASE = ALPHABET.length. -/
def BASE : Nat := ALPHABET.length

/-- lib/constants.ts PAD_ID_BYTES. -/
def PAD_ID_BYTES : Nat := 8

/-- lib/constants.ts PAD_ID_LENGTH. -/
def PAD_ID_LENGTH : Nat := 12

/-- The big-integer a byte sequence denotes (lib/encoding.ts encode,
first loop). -/
def bytesToNum (bytes : List Nat) : Nat :=
  bytes.foldl (fun n b => n * 256 + b) 0

/-- Base-N digit expansion, most significant first (lib/encoding.ts
encode, second loop).  The first argument is fuel; fuel n suffices for
numbers up to n. -/
def toDigits : Nat → Nat → List Nat
  | 0, _ => []
  | fuel + 1, n => if n = 0 then [] else toDigits fuel (n / BASE) ++ [n % BASE]

/-- Character of one base-N digit. -/
def charOf (d : Nat) : Char := ALPHABET.getD d ' '

/-- Count of leading zero bytes (lib/encoding.ts encode, third loop). -/
def leadingZeroCount : List Nat → Nat
  | [] => 0
  | b :: bs => if b = 0 then leadingZeroCount bs + 1 else 0

/-- lib/encoding.ts encode: base-N big-integer encoding with one leading
alphabet-zero character per leading zero byte. -/
def encode (bytes : List Nat) : List Char :=
  if bytes = [] then []
  else
    let num := bytesToNum bytes
    let core := (toDigits (num + 1) num).map charOf
    let full := List.replicate (leadingZeroCount bytes) (charOf 0) ++ core
    if full = [] then [charOf 0] else full

/-- lib/encoding.ts encodeFixed: truncate or left-pad to a fixed length. -/
def encodeFixed (bytes : List Nat) (len : Nat) : List Char :=
  let e := encode bytes
  if len ≤ e.length then e.take len
  else List.replicate (len - e.length) (charOf 0) ++ e

/-- Value of one hex digit character (parseInt base 16 on one digit). -/
def hexDigitVal (c : Char) : Nat :=
  if '0' ≤ c ∧ c ≤ '9' then c.toNat - 48
  else if 'a' ≤ c ∧ c ≤ 'f' then c.toNat - 87
  else if 'A' ≤ c ∧ c ≤ 'F' then c.toNat - 55
  else 0

/-- lib/keys.ts hexToBytes: consecutive hex digit pairs to bytes; a
trailing odd digit is dropped as in the source (array of floor length). -/
def hexToBytes : List Char → List Nat
  | c1 :: c2 :: rest => (hexDigitVal c1 * 16 + hexDigitVal c2) :: hexToBytes rest
  | _ => []

/-- lib/keys.ts deriveKeys (the current, isEdit-based version): with a
stored secret key, the public key is derived (getPublicKey is the external
signing capability, a parameter here), the expected padId is recomputed
from the fixed-length public key prefix, and a mismatch rejects the pair
with null; without a stored key the caller gets the view-only identity. -/
def deriveKeys (getPublicKey : List Nat → List Char) (padId : List Char)
    (storedSecretKey : Option (List Nat)) :
    Option (Option (List Nat) × List Char) :=
  match storedSecretKey with
  | some key =>
      if key.length ≠ 32 then none
      else
        let publicKey := getPublicKey key
        let pubkeyBytes := hexToBytes publicKey
        let expectedPadId := encodeFixed (pubkeyBytes.take PAD_ID_BYTES) PAD_ID_LENGTH
        if expectedPadId ≠ padId then none
        else some (some key, publicKey)
  | none => some (none, [])

end Keys

namespace StorageV3

/-- lib/sessionStorage.ts SessionData (DB version 3): padId, the AES-GCM
encrypted secret key, the CryptoKey handle (an opaque Nat here), the iv,
and the optional integrity tag. -/
structure SessionData where
  padId : String
  encryptedPrivateKey : List Nat
  aesKey : Nat
  iv : List Nat
  integrityTag : Option (List Nat)
deriving DecidableEq, Repr

/-- lib/sessionStorage.ts GLOBAL_KEY: the single key of the object store. -/
def GLOBAL_KEY : String := "current-session"

/-- The IndexedDB object store: a key-value map. -/
def Store : Type := String → Option SessionData

/-- The empty object store. -/
def emptyStore : Store := fun _ => none

/-- lib/sessionStorage.ts computeIntegrityTag:
SHA-256(padId bytes, iv, encryptedPrivateKey concatenated). -/
def computeIntegrityTag (padId : String) (iv encryptedPrivateKey : List Nat) :
    List Nat :=
  sha256Model (strBytes padId ++ iv ++ encryptedPrivateKey)

/-- lib/sessionStorage.ts verifyIntegrityTag: absent tag never verifies;
otherwise the recomputed tag is compared byte for byte. -/
def verifyIntegrityTag (s : SessionData) : Bool :=
  match s.integrityTag with
  | none => false
  | some tag =>
      decide (computeIntegrityTag s.padId s.iv s.encryptedPrivateKey = tag)

/-- lib/sessionStorage.ts storeSession: put under GLOBAL_KEY with a
freshly computed tag, overwriting whatever record was there. -/
def storeSession (db : Store) (padId : String)
    (encryptedPrivateKey : List Nat) (aesKey : Nat) (iv : List Nat) : Store :=
  fun k =>
    if k = GLOBAL_KEY then
      some { padId := padId, encryptedPrivateKey := encryptedPrivateKey,
             aesKey := aesKey, iv := iv,
             integrityTag := some (computeIntegrityTag padId iv encryptedPrivateKey) }
    else db k

/-- lib/sessionStorage.ts getStoredSession: raw read of GLOBAL_KEY. -/
def getStoredSession (db : Store) : Option SessionData := db GLOBAL_KEY

/-- lib/sessionStorage.ts getVerifiedStoredSession: read plus integrity
verification; a failed check is treated as no session. -/
def getVerifiedStoredSession (db : Store) : Option SessionData :=
  match getStoredSession db with
  | none => none
  | some s => if verifyIntegrityTag s then some s else none

/-- lib/sessionStorage.ts getSession: the verified record is returned only
when its padId matches the requested one. -/
def getSession (db : Store) (padId : String) :
    Option (List Nat × Nat × List Nat) :=
  match getVerifiedStoredSession db with
  | none => none
  | some s =>
      if s.padId = padId then some (s.encryptedPrivateKey, s.aesKey, s.iv)
      else none

/-- lib/sessionStorage.ts getDecryptedPrivateKey: decrypt (the AEAD
capability, a parameter) is consulted only on a verified matching
record. -/
def getDecryptedPrivateKey
    (decrypt : List Nat → Nat → List Nat → Option (List Nat))
    (db : Store) (padId : String) : Option (List Nat) :=
  match getSession db padId with
  | none => none
  | some (enc, key, iv) => decrypt enc key iv

/-- lib/sessionStorage.ts clearSession: delete GLOBAL_KEY. -/
def clearSession (db : Store) : Store :=
  fun k => if k = GLOBAL_KEY then none else db k

/-- The write operations of the vault. -/
inductive VaultOp where
  | store (padId : String) (encryptedPrivateKey : List Nat) (aesKey : Nat) (iv : List Nat)
  | clear

/-- Apply one vault operation to the object store. -/
def applyOp (db : Store) : VaultOp → Store
  | .store p e k i => storeSession db p e k i
  | .clear => clearSession db

end StorageV3

end NostrPad

open NostrPad

namespace NostrPad.Sync

/-- A payload whose timestamp does not exceed the latest seen leaves the
state untouched. -/
theorem handleContentEvent_skip (s : SyncState) (p : PadPayload)
    (h : p.timestamp ≤ s.latestTimestamp) : handleContentEvent s p = s := by
  simp [handleContentEvent, not_lt.mpr h]

/-- Folding over payloads none of which beats the latest timestamp is the
identity. -/
theorem foldl_skip_all (l : List PadPayload) (s : SyncState)
    (h : ∀ p ∈ l, p.timestamp ≤ s.latestTimestamp) :
    l.foldl handleContentEvent s = s := by
  induction l with
  | nil => rfl
  | cons x xs ih =>
      simp only [List.foldl_cons]
      rw [handleContentEvent_skip s x (h x (List.mem_cons_self x xs))]
      exact ih fun p hp => h p (List.mem_cons_of_mem x hp)

/-- Core fold lemma: from any state strictly below the unique maximal
timestamp, processing the payloads in any order adopts exactly the maximal
payload. -/
theorem foldl_adopts_max (l : List PadPayload) : ∀ (s : SyncState) (e : PadPayload),
    e ∈ l → (∀ p ∈ l, p.timestamp ≤ e.timestamp) →
    (∀ p ∈ l, p.timestamp = e.timestamp → p = e) →
    s.latestTimestamp < e.timestamp →
    (l.foldl handleContentEvent s).latestTimestamp = e.timestamp ∧
    (l.foldl handleContentEvent s).latestText = e.text ∧
    (l.foldl handleContentEvent s).isLocalChange = s.isLocalChange ∧
    (s.isLocalChange = false → (l.foldl handleContentEvent s).content = e.text) := by
  induction l with
  | nil => intro s e he; exact absurd he (List.not_mem_nil e)
  | cons x xs ih =>
      intro s e he hmax huniq hlt
      simp only [List.foldl_cons]
      by_cases hex : x = e
      · subst hex
        have hstep : handleContentEvent s x =
            { latestTimestamp := x.timestamp, latestText := x.text,
              content := if s.isLocalChange then s.content else x.text,
              isLocalChange := s.isLocalChange } := by
          simp [handleContentEvent, hlt]
        rw [hstep, foldl_skip_all]
        · refine ⟨rfl, rfl, rfl, fun hlc => ?_⟩
          simp [hlc]
        · intro p hp
          exact hmax p (List.mem_cons_of_mem x hp)
      · have hexs : e ∈ xs := by
          rcases List.mem_cons.mp he with h | h
          · exact absurd h.symm hex
          · exact h
        have hxlt : x.timestamp < e.timestamp := by
          have hle := hmax x (List.mem_cons_self x xs)
          rcases lt_or_eq_of_le hle with h | h
          · exact h
          · exact absurd (huniq x (List.mem_cons_self x xs) h) hex
        by_cases hadopt : s.latestTimestamp < x.timestamp
        · have hstep : handleContentEvent s x =
              { latestTimestamp := x.timestamp, latestText := x.text,
                content := if s.isLocalChange then s.content else x.text,
                isLocalChange := s.isLocalChange } := by
            simp [handleContentEvent, hadopt]
          rw [hstep]
          exact ih _ e hexs
            (fun p hp => hmax p (List.mem_cons_of_mem x hp))
            (fun p hp hpe => huniq p (List.mem_cons_of_mem x hp) hpe) hxlt
        · rw [handleContentEvent_skip s x (not_lt.mp hadopt)]
          exact ih s e hexs (fun p hp => hmax p (List.mem_cons_of_mem x hp))
            (fun p hp hpe => huniq p (List.mem_cons_of_mem x hp) hpe) hlt

/-- Claim C1: for every finite collection of content events of a pad and
every arrival order (any list enumerating them), after the sync engine has
processed all of them from start-up with no local edit in progress, the
adopted text equals the text of the decoded payload carrying the maximal
embedded timestamp; moreover a payload whose decoded timestamp does not
strictly exceed the highest timestamp seen so far is never adopted. -/
theorem lww_order_independent (l : List PadPayload) (e : PadPayload)
    (he : e ∈ l) (hmax : ∀ p ∈ l, p.timestamp ≤ e.timestamp)
    (huniq : ∀ p ∈ l, p.timestamp = e.timestamp → p = e)
    (hpos : 0 < e.timestamp) :
    (l.foldl handleContentEvent initialSyncState).content = e.text ∧
    (l.foldl handleContentEvent initialSyncState).latestText = e.text ∧
    (l.foldl handleContentEvent initialSyncState).latestTimestamp = e.timestamp ∧
    (∀ (s : SyncState) (p : PadPayload), p.timestamp ≤ s.latestTimestamp →
      handleContentEvent s p = s) := by
  have h := foldl_adopts_max l initialSyncState e he hmax huniq hpos
  exact ⟨h.2.2.2 rfl, h.2.1, h.1, handleContentEvent_skip⟩

/-- Witness for C1 at a concrete arrival order: events with timestamps
2, 1, 3 arriving in that order end with the text of the timestamp-3
payload. -/
theorem lww_order_independent_witness :
    (([{ text := "b", timestamp := 2 }, { text := "a", timestamp := 1 },
       { text := "c", timestamp := 3 }] : List PadPayload).foldl
        handleContentEvent initialSyncState).content = "c" :=
  (lww_order_independent
    [{ text := "b", timestamp := 2 }, { text := "a", timestamp := 1 },
     { text := "c", timestamp := 3 }]
    { text := "c", timestamp := 3 }
    (by decide) (by decide) (by decide) (by decide)).1

/-- Reachable sync states have a nonnegative latest timestamp, and a zero
latest timestamp means no text has ever been adopted. -/
theorem reachable_latest_inv {s : SyncState} (h : ReachableSync s) :
    0 ≤ s.latestTimestamp ∧ (s.latestTimestamp = 0 → s.latestText = "") := by
  induction h with
  | init => exact ⟨le_refl 0, fun _ => rfl⟩
  | recv s p _ ih =>
      match p with
      | none => exact ih
      | some q =>
          by_cases hlt : s.latestTimestamp < q.timestamp
          · simp only [handleEvent, handleContentEvent, if_pos hlt]
            exact ⟨le_of_lt (lt_of_le_of_lt ih.1 hlt), fun h0 => by omega⟩
          · simp only [handleEvent, handleContentEvent, if_neg hlt]
            exact ih
  | load s p _ ih =>
      by_cases hlt : s.latestTimestamp < p.timestamp
      · simp only [loadLatestContent, if_pos hlt]
        exact ⟨le_of_lt (lt_of_le_of_lt ih.1 hlt), fun h0 => by omega⟩
      · simp only [loadLatestContent, if_neg hlt]
        exact ih
  | edit s c _ ih => exact ih
  | publishDone s p _ hp ih =>
      exact ⟨le_of_lt hp, fun h0 => by simp [completePublish] at h0; omega⟩
  | publishNoDecode s _ ih => exact ih

/-- Claim C9: whenever the publish debounce elapses and the debounced
content equals the last-known text for the pad, the publish guards skip
the publish in every reachable engine state, so unchanged content is never
published. -/
theorem no_unchanged_publish (s : SyncState) (d : String)
    (hs : ReachableSync s) (hd : d = s.latestText) :
    publishProceeds s d = false := by
  have inv := reachable_latest_inv hs
  subst hd
  by_cases h0 : s.latestTimestamp = 0
  · simp [publishProceeds, h0, inv.2 h0]
  · have hpos : 0 < s.latestTimestamp := lt_of_le_of_ne inv.1 (Ne.symm h0)
    simp [publishProceeds, hpos]

/-- Witness for C9 at the initial state: republishing the empty initial
text is skipped. -/
theorem no_unchanged_publish_witness :
    publishProceeds initialSyncState "" = false :=
  no_unchanged_publish initialSyncState "" ReachableSync.init rfl

end NostrPad.Sync

namespace NostrPad.Invalidation

/-- Claim C3 counterexample: a logout event at 1 s (1000 ms), strictly
after the session creation time 500 ms, leaves the session uncleared and
the tab not downgraded, because the stored record (createdAt 2000) is
newer than the session of this tab; the claim as stated requires the
session to be cleared whenever the signal timestamp strictly exceeds
createdAtMs. -/
theorem logout_newer_stored_cex :
    processLogoutEvent true true (some 500) 1 (Vault.storeSession [] [] 0 [] 2000)
      = (Vault.storeSession [] [] 0 [] 2000, false) ∧ 500 < 1 * 1000 := by
  decide

/-- Claim C3 as amended: for an active editor session with creation time
c, a valid logout signal for the pad clears the session and downgrades to
read-only exactly when its time strictly exceeds c and the stored record
is not newer than this session (a newer stored record is a same-device
update and the clear is skipped); a signal at or before c is ignored and
the session is unchanged. -/
theorem logout_superseded_amended (vault : Option Vault.SessionRecord)
    (c ev : Nat) (hc : 0 < c) :
    processLogoutEvent true true (some c) ev vault =
      (if c < ev * 1000 then
        (if c < storedSessionCreatedAt vault then (vault, false) else (none, true))
      else (vault, false)) := by
  by_cases hev : c < ev * 1000
  · simp [processLogoutEvent, logoutSignalFires, handleLogout, hev, hc.ne']
  · simp [processLogoutEvent, logoutSignalFires, handleLogout, hev, hc.ne']

/-- Witness for the amended C3 at a concrete input: session created at
500 ms, signal at 1 s, no stored record, so the session is cleared and
the tab downgrades. -/
theorem logout_superseded_amended_witness :
    processLogoutEvent true true (some 500) 1 none =
      (if 500 < 1 * 1000 then
        (if 500 < storedSessionCreatedAt (none : Option Vault.SessionRecord) then
          ((none : Option Vault.SessionRecord), false)
        else (none, true))
      else (none, false)) :=
  logout_superseded_amended none 500 1 (by decide)

end NostrPad.Invalidation

namespace NostrPad.Vault

/-- The 8-byte serialisation of the timestamp is injective below 2^64. -/
theorem natBytes8_inj {m n : Nat}
    (hm : m < 18446744073709551616) (hn : n < 18446744073709551616)
    (h : natBytes8 m = natBytes8 n) : m = n := by
  simp only [natBytes8, List.cons.injEq, and_true] at h
  omega

/-- The serialisation always occupies eight bytes. -/
theorem natBytes8_length (n : Nat) : (natBytes8 n).length = 8 := rfl

/-- The integrity tag input determines the four bound fields once the
variable-length fields keep their lengths and the timestamps are below
2^64. -/
theorem computeIntegrityTag_inj
    {p q iv jv e f : List Nat} {c d : Nat}
    (hp : p.length = q.length) (hiv : iv.length = jv.length)
    (hc : c < 18446744073709551616) (hd : d < 18446744073709551616)
    (h : computeIntegrityTag p c iv e = computeIntegrityTag q d jv f) :
    p = q ∧ c = d ∧ iv = jv ∧ e = f := by
  simp only [computeIntegrityTag, sha256Model] at h
  have hlen1 : (p ++ natBytes8 c ++ iv).length = (q ++ natBytes8 d ++ jv).length := by
    simp [hp, hiv, natBytes8_length]
  obtain ⟨h1, h4⟩ := List.append_inj h hlen1
  have hlen2 : (p ++ natBytes8 c).length = (q ++ natBytes8 d).length := by
    simp [hp, natBytes8_length]
  obtain ⟨h2, h3⟩ := List.append_inj h1 hlen2
  obtain ⟨hp1, hc1⟩ := List.append_inj h2 hp
  exact ⟨hp1, natBytes8_inj hc hd hc1, h3, h4⟩

/-- Claim C2: a stored SessionRecord carries the tag
Hash(padId, createdAtMs, iv, encryptedSecretKey); the tag is recomputed on
every read and verifies on the untampered record; and changing any of the
four bound fields (length-preserving for the variable-length fields,
including any change of createdAtMs) makes verification fail
deterministically, after which the record is treated as absent. -/
theorem session_integrity_binding (p enc : List Nat) (a : Nat) (iv : List Nat)
    (c : Nat) (hc : c < 18446744073709551616) :
    storeSession p enc a iv c = some
      { padId := p, encryptedPrivateKey := enc, aesKey := a, iv := iv,
        createdAt := some c,
        integrityTag := some (sha256Model (p ++ natBytes8 c ++ iv ++ enc)) } ∧
    (∀ s, storeSession p enc a iv c = some s → verifyIntegrityTag s = true) ∧
    (∀ (q enc2 iv2 : List Nat) (c2 a2 : Nat),
      q.length = p.length → iv2.length = iv.length →
      c2 < 18446744073709551616 →
      ¬ (q = p ∧ c2 = c ∧ iv2 = iv ∧ enc2 = enc) →
      verifyIntegrityTag
        { padId := q, encryptedPrivateKey := enc2, aesKey := a2, iv := iv2,
          createdAt := some c2,
          integrityTag := some (computeIntegrityTag p c iv enc) } = false ∧
      getVerifiedStoredSession (some
        { padId := q, encryptedPrivateKey := enc2, aesKey := a2, iv := iv2,
          createdAt := some c2,
          integrityTag := some (computeIntegrityTag p c iv enc) }) = none) := by
  refine ⟨rfl, ?_, ?_⟩
  · intro s hs
    cases Option.some.injEq _ _ ▸ hs
    simp [verifyIntegrityTag, storeSession]
  · intro q enc2 iv2 c2 a2 hq hiv hc2 hne
    have hv : verifyIntegrityTag
        { padId := q, encryptedPrivateKey := enc2, aesKey := a2, iv := iv2,
          createdAt := some c2,
          integrityTag := some (computeIntegrityTag p c iv enc) } = false := by
      simp only [verifyIntegrityTag, decide_eq_false_iff_not]
      intro heq
      obtain ⟨h1, h2, h3, h4⟩ := computeIntegrityTag_inj hq hiv hc2 hc heq
      exact hne ⟨h1, h2, h3, h4⟩
    exact ⟨hv, by simp [getVerifiedStoredSession, hv]⟩

/-- Witness for C2: a concrete stored record verifies, and flipping the
createdAt timestamp from 5 to 6 makes verification fail. -/
theorem session_integrity_binding_witness :
    verifyIntegrityTag
      { padId := [1], encryptedPrivateKey := [3], aesKey := 0, iv := [2],
        createdAt := some 6,
        integrityTag := some (computeIntegrityTag [1] 5 [2] [3]) } = false :=
  ((session_integrity_binding [1] [3] 0 [2] 5 (by decide)).2.2
    [1] [3] [2] 6 0 (by decide) (by decide) (by decide) (by decide)).1

/-- Claim C6: a stored record lacking the createdAt field (legacy shape)
never verifies; every read treats it as absent, the secret key accessor
returns none for every padId, and the result does not depend on the
decrypt capability, so no decryption is attempted. -/
theorem legacy_session_absent (s : SessionRecord) (h : s.createdAt = none) :
    verifyIntegrityTag s = false ∧
    getVerifiedStoredSession (some s) = none ∧
    (∀ (decrypt : List Nat → Nat → List Nat → Option (List Nat))
       (padId : List Nat),
      getDecryptedPrivateKey decrypt (some s) padId = none) := by
  have hv : verifyIntegrityTag s = false := by
    rcases s with ⟨p, e, a, iv, cAt, tag⟩
    cases cAt with
    | none => cases tag <;> rfl
    | some c => simp at h
  have hg : getVerifiedStoredSession (some s) = none := by
    simp [getVerifiedStoredSession, hv]
  refine ⟨hv, hg, fun decrypt padId => ?_⟩
  simp [getDecryptedPrivateKey, getSession, hg]

/-- Witness for C6 at a concrete legacy record. -/
theorem legacy_session_absent_witness :
    verifyIntegrityTag
      { padId := [1], encryptedPrivateKey := [3], aesKey := 0, iv := [2],
        createdAt := none, integrityTag := some [7] } = false :=
  (legacy_session_absent
    { padId := [1], encryptedPrivateKey := [3], aesKey := 0, iv := [2],
      createdAt := none, integrityTag := some [7] } rfl).1

end NostrPad.Vault

namespace NostrPad.Discovery

/-- Membership is preserved by the insertion-order deduplication when the
element is not among the already seen ones. -/
theorem mem_dedupAux_of (x : String) : ∀ (l seen : List String),
    x ∈ l → x ∉ seen → x ∈ dedupAux seen l := by
  intro l
  induction l with
  | nil => intro seen h _; exact absurd h (List.not_mem_nil x)
  | cons y ys ih =>
      intro seen hx hseen
      by_cases hy : y ∈ seen
      · rw [dedupAux, if_pos hy]
        rcases List.mem_cons.mp hx with rfl | h2
        · exact absurd hy hseen
        · exact ih seen h2 hseen
      · rw [dedupAux, if_neg hy]
        rcases List.mem_cons.mp hx with rfl | h2
        · exact List.mem_cons_self x _
        · by_cases hxy : x = y
          · subst hxy; exact List.mem_cons_self x _
          · exact List.mem_cons_of_mem y
              (ih (y :: seen) h2 (by simp [List.mem_cons, hxy, hseen]))

/-- Deduplicating a non-empty list gives a non-empty list. -/
theorem dedupJs_ne_nil (l : List String) (h : l ≠ []) : dedupJs l ≠ [] := by
  cases l with
  | nil => exact absurd rfl h
  | cons x xs => simp [dedupJs, dedupAux]

/-- Claim C4: for every combination of probe and discovery failures
(including every external call throwing), relay selection returns a
non-empty relay list, and on total failure exactly the bootstrap set; the
embedding is a total function, so no exception reaches the caller. -/
theorem relay_selection_never_empty (e k : Bool) (w : DiscoveryWorld) :
    (initializeRelays e k w).relays ≠ [] ∧
    (w.probeBootstrap = Except.error () → w.bestRelays = Except.error () →
     w.publishOutcome = Except.error () → w.fetchResult = Except.error () →
     (initializeRelays e k w).relays = BOOTSTRAP_RELAYS) := by
  obtain ⟨pb, br, po, fr⟩ := w
  have hboot : BOOTSTRAP_RELAYS ≠ [] := by decide
  constructor
  · cases hek : e && k with
    | true =>
        cases pb with
        | error u => simpa [initializeRelays, hek] using hboot
        | ok probes =>
            by_cases hp : 0 < probes.length
            · cases po <;> simpa [initializeRelays, hek, hp] using hboot
            · cases br with
              | error u => simpa [initializeRelays, hek, hp] using hboot
              | ok best =>
                  by_cases hb : 0 < best.length
                  · cases po with
                    | error u => simpa [initializeRelays, hek, hp, hb] using hboot
                    | ok u =>
                        simpa [initializeRelays, hek, hp, hb] using
                          List.length_pos.mp hb
                  · simpa [initializeRelays, hek, hp, hb] using hboot
    | false =>
        cases fr with
        | error u => simpa [initializeRelays, hek] using hboot
        | ok o =>
            cases o with
            | none => simpa [initializeRelays, hek] using hboot
            | some discovered =>
                by_cases hd : 0 < discovered.length
                · have happ : discovered ++ BOOTSTRAP_RELAYS ≠ [] := by
                    intro hx
                    exact hboot (List.append_eq_nil.mp hx).2
                  simpa [initializeRelays, hek, hd] using dedupJs_ne_nil _ happ
                · simpa [initializeRelays, hek, hd] using hboot
  · intro h1 h2 h3 h4
    subst h1; subst h2; subst h3; subst h4
    cases hek : e && k <;> simp [initializeRelays, hek]

/-- Witness for C4: with every external call failing, the writer path
returns exactly the non-empty bootstrap set. -/
theorem relay_selection_never_empty_witness :
    (initializeRelays true true allFailWorld).relays = BOOTSTRAP_RELAYS ∧
    (initializeRelays true true allFailWorld).relays ≠ [] :=
  ⟨(relay_selection_never_empty true true allFailWorld).2 rfl rfl rfl rfl,
   (relay_selection_never_empty true true allFailWorld).1⟩

/-- Claim C5 counterexample: on the writer path, when the bootstrap probes
all fail and discovery selects a single non-bootstrap relay, the resulting
selection does not contain the bootstrap relays, so it is not a superset
of the bootstrap set. -/
theorem relay_superset_cex :
    ¬ (∀ r ∈ BOOTSTRAP_RELAYS,
        r ∈ (initializeRelays true true supersetCexWorld).relays) := by
  decide

/-- Claim C5 as amended: reader-path selections are always supersets of
the bootstrap set, and every selection tagged bootstrap is exactly the
bootstrap set; the writer discovered path returns just the probed best
relays, which need not include bootstrap. -/
theorem relay_superset_amended (e k : Bool) (w : DiscoveryWorld) :
    (((e && k) = false) → ∀ r ∈ BOOTSTRAP_RELAYS,
      r ∈ (initializeRelays e k w).relays) ∧
    ((initializeRelays e k w).source = RelaySource.bootstrap →
      (initializeRelays e k w).relays = BOOTSTRAP_RELAYS) := by
  obtain ⟨pb, br, po, fr⟩ := w
  constructor
  · intro hek r hr
    have hcond : ¬ ((e && k) = true) := by simp [hek]
    cases fr with
    | error u => simpa [initializeRelays, hcond] using hr
    | ok o =>
        cases o with
        | none => simpa [initializeRelays, hcond] using hr
        | some discovered =>
            by_cases hd : 0 < discovered.length
            · simp only [initializeRelays, hcond, if_false, hd, if_true]
              exact mem_dedupAux_of r (discovered ++ BOOTSTRAP_RELAYS) []
                (List.mem_append.mpr (Or.inr hr)) (List.not_mem_nil r)
            · simpa [initializeRelays, hcond, hd] using hr
  · simp only [initializeRelays]
    repeat' split
    all_goals intro hsrc
    all_goals first
      | rfl
      | simp at hsrc

/-- Witness for the amended C5: a reader execution whose discovery
returned one non-bootstrap relay still contains every bootstrap relay. -/
theorem relay_superset_amended_witness :
    ∀ r ∈ BOOTSTRAP_RELAYS,
      r ∈ (initializeRelays false false
        { probeBootstrap := .ok [], bestRelays := .ok [],
          publishOutcome := .ok (),
          fetchResult := .ok (some ["wss://nostr.wine"]) }).relays :=
  (relay_superset_amended false false
    { probeBootstrap := .ok [], bestRelays := .ok [],
      publishOutcome := .ok (),
      fetchResult := .ok (some ["wss://nostr.wine"]) }).1 rfl

/-- Claim C8: when the cache has no fresh record for the pad, a selection
runs and is stored keyed by the padId together with the current time; and
every subsequent selection for the same padId within the TTL returns the
cached relay set tagged cached, leaves the cache unchanged, and runs no
probe or discovery query. -/
theorem relay_cache_roundtrip (cache : CacheStore) (padId : String)
    (now : Nat) (e k : Bool) (w : DiscoveryWorld)
    (hmiss : getCachedRelays cache padId now = none) :
    (initializeRelaysCached cache padId now e k w).discoveryRan = true ∧
    (initializeRelaysCached cache padId now e k w).cache padId = some
      { relays := (initializeRelaysCached cache padId now e k w).selection.relays,
        timestamp := now } ∧
    (∀ (now2 : Nat) (e2 k2 : Bool) (w2 : DiscoveryWorld),
      now2 - now < RELAY_CACHE_DURATION →
      initializeRelaysCached (initializeRelaysCached cache padId now e k w).cache
          padId now2 e2 k2 w2 =
        { selection :=
            { relays := (initializeRelaysCached cache padId now e k w).selection.relays,
              source := RelaySource.cached },
          cache := (initializeRelaysCached cache padId now e k w).cache,
          discoveryRan := false }) := by
  have hrun : initializeRelaysCached cache padId now e k w =
      { selection := initializeRelays e k w,
        cache := setCachedRelays cache padId (initializeRelays e k w).relays now,
        discoveryRan := true } := by
    simp [initializeRelaysCached, hmiss]
  refine ⟨by rw [hrun], by rw [hrun]; simp [setCachedRelays], ?_⟩
  intro now2 e2 k2 w2 hfresh
  have hstored : (initializeRelaysCached cache padId now e k w).cache padId = some
      { relays := (initializeRelaysCached cache padId now e k w).selection.relays,
        timestamp := now } := by
    rw [hrun]; simp [setCachedRelays]
  have hhit : getCachedRelays (initializeRelaysCached cache padId now e k w).cache
      padId now2 = some
        (initializeRelaysCached cache padId now e k w).selection.relays := by
    rw [getCachedRelays, hstored]
    simp [hfresh]
  rw [initializeRelaysCached, hhit]

/-- Witness for C8: from the empty cache at time 0 the writer path stores
its selection under the padId, and a second run at time 100 returns the
cached set without running discovery. -/
theorem relay_cache_roundtrip_witness :
    (initializeRelaysCached emptyCache "p1" 0 true true allFailWorld).cache "p1"
      = some
        { relays := (initializeRelaysCached emptyCache "p1" 0 true true
            allFailWorld).selection.relays, timestamp := 0 } ∧
    initializeRelaysCached
        (initializeRelaysCached emptyCache "p1" 0 true true allFailWorld).cache
        "p1" 100 false false allFailWorld =
      { selection :=
          { relays := (initializeRelaysCached emptyCache "p1" 0 true true
              allFailWorld).selection.relays,
            source := RelaySource.cached },
        cache := (initializeRelaysCached emptyCache "p1" 0 true true
          allFailWorld).cache,
        discoveryRan := false } :=
  ⟨(relay_cache_roundtrip emptyCache "p1" 0 true true allFailWorld rfl).2.1,
   (relay_cache_roundtrip emptyCache "p1" 0 true true allFailWorld rfl).2.2
     100 false false allFailWorld (by decide)⟩

end NostrPad.Discovery

namespace NostrPad.Keys

/-- Claim C7: for every padId and stored secret key whose derived
public-key prefix encoding differs from that padId, key derivation
rejects the pair with null rather than returning a usable identity, for
every public-key derivation capability. -/
theorem deriveKeys_rejects_mismatch (getPublicKey : List Nat → List Char)
    (padId : List Char) (key : List Nat) (h32 : key.length = 32)
    (hne : encodeFixed ((hexToBytes (getPublicKey key)).take PAD_ID_BYTES)
        PAD_ID_LENGTH ≠ padId) :
    deriveKeys getPublicKey padId (some key) = none := by
  simp [deriveKeys, h32, hne]

/-- Witness for C7: the all-zero toy public key yields the padId of
twelve alphabet-zero characters, so requesting a different padId is
rejected. -/
theorem deriveKeys_rejects_mismatch_witness :
    deriveKeys (fun _ => "0000000000000000".data) "AAAAAAAAAAAA".data
      (some (List.replicate 32 0)) = none :=
  deriveKeys_rejects_mismatch (fun _ => "0000000000000000".data)
    "AAAAAAAAAAAA".data (List.replicate 32 0) (by decide) (by decide)

end NostrPad.Keys

namespace NostrPad.StorageV3

/-- One vault operation keeps every key other than GLOBAL_KEY empty. -/
theorem applyOp_single_key (db : Store) (op : VaultOp)
    (h : ∀ k, k ≠ GLOBAL_KEY → db k = none) :
    ∀ k, k ≠ GLOBAL_KEY → applyOp db op k = none := by
  intro k hk
  cases op with
  | store p e a i =>
      simp only [applyOp, storeSession, if_neg hk]
      exact h k hk
  | clear =>
      simp only [applyOp, clearSession, if_neg hk]
      exact h k hk

/-- Any sequence of vault operations from the empty store keeps every key
other than GLOBAL_KEY empty. -/
theorem foldl_single_key (ops : List VaultOp) :
    ∀ k, k ≠ GLOBAL_KEY → (ops.foldl applyOp emptyStore) k = none := by
  have main : ∀ (l : List VaultOp) (db : Store),
      (∀ k, k ≠ GLOBAL_KEY → db k = none) →
      ∀ k, k ≠ GLOBAL_KEY → (l.foldl applyOp db) k = none := by
    intro l
    induction l with
    | nil => intro db h; exact h
    | cons op rest ih =>
        intro db h
        exact ih (applyOp db op) (applyOp_single_key db op h)
  exact main ops emptyStore (fun k _ => rfl)

/-- A freshly stored record is returned verified. -/
theorem getVerified_store (db : Store) (p : String) (e : List Nat) (a : Nat)
    (i : List Nat) :
    getVerifiedStoredSession (storeSession db p e a i) = some
      { padId := p, encryptedPrivateKey := e, aesKey := a, iv := i,
        integrityTag := some (computeIntegrityTag p i e) } := by
  simp [getVerifiedStoredSession, getStoredSession, storeSession,
    verifyIntegrityTag]

/-- After storing a session for one pad, the accessor returns none for
every other padId. -/
theorem getSession_store_other (db : Store) (p : String) (e : List Nat)
    (a : Nat) (i : List Nat) (q : String) (hq : q ≠ p) :
    getSession (storeSession db p e a i) q = none := by
  simp [getSession, getVerified_store, Ne.symm hq]

/-- Claim C10: the vault holds at most one record, always under the single
global key (every operation sequence leaves all other keys empty);
creating or importing a session overwrites the global record regardless of
which pad the previous record belonged to; and afterwards the secret key
accessors return none for every padId other than the one just stored. -/
theorem vault_single_record (ops : List VaultOp) (db : Store) (p : String)
    (e : List Nat) (a : Nat) (i : List Nat) :
    (∀ k, k ≠ GLOBAL_KEY → (ops.foldl applyOp emptyStore) k = none) ∧
    (storeSession db p e a i) GLOBAL_KEY = some
      { padId := p, encryptedPrivateKey := e, aesKey := a, iv := i,
        integrityTag := some (computeIntegrityTag p i e) } ∧
    (∀ q, q ≠ p → getSession (storeSession db p e a i) q = none) ∧
    (∀ (decrypt : List Nat → Nat → List Nat → Option (List Nat)) (q : String),
      q ≠ p → getDecryptedPrivateKey decrypt (storeSession db p e a i) q = none) := by
  refine ⟨foldl_single_key ops, by simp [storeSession], ?_, ?_⟩
  · intro q hq
    exact getSession_store_other db p e a i q hq
  · intro decrypt q hq
    simp [getDecryptedPrivateKey, getSession_store_other db p e a i q hq]

/-- Witness for C10: after storing a session for pad a over the empty
store, the key x is empty and the accessor for pad b returns none. -/
theorem vault_single_record_witness :
    (([VaultOp.store "a" [1] 0 [2]].foldl applyOp emptyStore) "x" = none) ∧
    getSession (storeSession emptyStore "a" [1] 0 [2]) "b" = none :=
  ⟨(vault_single_record [VaultOp.store "a" [1] 0 [2]] emptyStore "a" [1] 0 [2]).1
      "x" (by decide),
   (vault_single_record [VaultOp.store "a" [1] 0 [2]] emptyStore "a" [1] 0 [2]).2.2.1
      "b" (by decide)⟩

end NostrPad.StorageV3
